import Mathlib

/-!
Shallow embedding of the anyrouter-check-in script (`checkin.py`) and proofs
about its documented behaviour.

Python floats are modelled as rationals (`ℚ`); Python dicts of strings as
association lists with overwrite-on-insert; network and browser I/O as
explicit oracles supplying the outcome of each call, with the calls the code
makes recorded in an event trace.
-/

namespace Checkin

/-- Values of a JSON document, as Python sees them after `json.loads`.
Containers are abstracted to their size, which is all Python truthiness
(`if result.get('success')`) and `== 1` / `== 0` comparisons observe. -/
inductive JVal where
  | jnull
  | jbool (b : Bool)
  | jnum (q : ℚ)
  | jstr (s : String)
  | jarr (size : Nat)
  | jobj (size : Nat)
deriving DecidableEq, Repr

/-- Python truthiness of a JSON value (`bool(v)`). -/
def JVal.truthy : JVal → Bool
  | .jnull => false
  | .jbool b => b
  | .jnum q => decide (q ≠ 0)
  | .jstr s => decide (s ≠ "")
  | .jarr n => decide (n ≠ 0)
  | .jobj n => decide (n ≠ 0)

/-- Python `v == n` for an integer literal `n`: numbers compare numerically
and booleans compare as 1/0 (`True == 1`, `False == 0`); every other JSON
type compares unequal to an integer. -/
def JVal.pyEqInt : JVal → Int → Bool
  | .jnum q, n => decide (q = (n : ℚ))
  | .jbool b, n => decide ((if b then (1 : Int) else 0) = n)
  | _, _ => false

/-- `d.get(k)` truthiness: an absent key is `None`, which is falsy. -/
def optTruthy (v : Option JVal) : Bool :=
  (v.map JVal.truthy).getD false

/-- `d.get(k) == n`: an absent key is `None`, never equal to an integer. -/
def optEqInt (v : Option JVal) (n : Int) : Bool :=
  (v.map (JVal.pyEqInt · n)).getD false

/-- The fields of the sign-in response body that `do_checkin_request` reads,
each `none` when the key is absent from the JSON object. -/
structure ApiBody where
  ret : Option JVal
  code : Option JVal
  success : Option JVal
  msg : Option JVal
  message : Option JVal
deriving DecidableEq, Repr

/-- Body of an HTTP response: either a JSON object (`response.json()`
succeeds and yields a dict) or raw text on which JSON decoding fails. -/
inductive RespBody where
  | jsonObj (b : ApiBody)
  | raw (text : String)
deriving DecidableEq, Repr

/-- Outcome of the (retried) sign-in POST as seen by `do_checkin_request`:
either an exception escaped `retry_async` (its message recorded), or a
response arrived with a status code and a body. -/
inductive HttpOutcome where
  | exc (msg : String)
  | resp (status : Nat) (body : RespBody)
deriving DecidableEq, Repr

/-- `needle in hay` for Lean strings (Python's substring test). -/
def strContainsSub (hay needle : String) : Bool :=
  (List.range (hay.data.length + 1)).any
    (fun i => needle.data.isPrefixOf (hay.data.drop i))

/-- Python `s.lower()`, character by character. -/
def strToLower (s : String) : String :=
  ⟨s.data.map Char.toLower⟩

/-- Python `s[:n]`. -/
def strTake (s : String) (n : Nat) : String :=
  ⟨s.data.take n⟩

/-- `do_checkin_request` (checkin.py lines 249-276), as a function of the
outcome of the wrapped POST.  Returns the `(api_success, api_error)` pair;
the Python function catches every exception, so it is total. -/
def do_checkin_request (o : HttpOutcome) : Bool × Option JVal :=
  match o with
  | .exc m => (false, some (.jstr (strTake m 100)))
  | .resp status body =>
    if status = 200 then
      match body with
      | .jsonObj r =>
        if optEqInt r.ret 1 || optEqInt r.code 0 || optTruthy r.success then
          (true, none)
        else
          (false, some (r.msg.getD (r.message.getD (.jstr "未知错误"))))
      | .raw t =>
        if strContainsSub (strToLower t) "success" then (true, none)
        else (false, some (.jstr "响应格式无效"))
    else
      (false, some (.jstr ("HTTP " ++ toString status)))

/-! ### Retry policy (`retry_async`, checkin.py lines 67-79) -/

/-- Outcome of one invocation of the wrapped coroutine: success, an
exception of one of the three transient network classes, or any other
exception. -/
inductive AttemptOutcome (α : Type) where
  | ok (v : α)
  | transient (e : String)
  | fatal (e : String)
deriving DecidableEq, Repr

/-- Observable events of a `retry_async` run: invoking the coroutine for
the attempt with the given 0-based index, and sleeping for a delay. -/
inductive REvent where
  | invoke (attempt : Nat)
  | sleep (delay : ℚ)
deriving DecidableEq, Repr

/-- How a `retry_async` run ends: a returned value, a raised exception
(the last transient one, or a fatal one propagating uncaught), or Python's
`raise None` when `max_retries = 0` lets the loop body never run. -/
inductive RetryResult (α : Type) where
  | ok (v : α)
  | raised (e : String)
  | raisedNone
deriving DecidableEq, Repr

/-- The loop of `retry_async`, with `remaining` attempts left and `attempt`
the 0-based index of the next one.  A transient failure with more attempts
remaining sleeps `base * 2 ^ attempt` and continues; on the last attempt it
is raised; a fatal exception propagates at once; a success returns. -/
def retryGo {α : Type} (f : Nat → AttemptOutcome α) (base : ℚ)
    (attempt : Nat) : Nat → RetryResult α × List REvent
  | 0 => (.raisedNone, [])
  | remaining + 1 =>
    match f attempt with
    | .ok v => (.ok v, [.invoke attempt])
    | .fatal e => (.raised e, [.invoke attempt])
    | .transient e =>
      if remaining = 0 then (.raised e, [.invoke attempt])
      else
        let r := retryGo f base (attempt + 1) remaining
        (r.1, .invoke attempt :: .sleep (base * 2 ^ attempt) :: r.2)

/-- `retry_async(coro_func, max_retries, base_delay)`: run the loop from
attempt 0.  `f k` is the outcome the coroutine would produce on its
`k`-th invocation (0-based). -/
def retry_async {α : Type} (f : Nat → AttemptOutcome α) (base : ℚ)
    (max_retries : Nat) : RetryResult α × List REvent :=
  retryGo f base 0 max_retries

/-! ### `mask_sensitive` (checkin.py lines 58-64) -/

/-- Python `value[-v:]` on a list of characters: for `v = 0` this is
`value[0:]`, the whole string; otherwise the last `min v (length)`
characters. -/
def pyLastSlice (l : List Char) (v : Nat) : List Char :=
  if v = 0 then l else l.drop (l.length - v)

/-- `mask_sensitive(value, visible_chars)`: the empty string maps to the
fixed `'***'`; a string of length at most `2 * visible_chars` is fully
masked; otherwise the first and last `visible_chars` characters are kept
(the tail via Python's `value[-visible_chars:]` slice) around a run of
asterisks. -/
def mask_sensitive (value : String) (visible_chars : Nat) : String :=
  if value.data = [] then "***"
  else if value.data.length ≤ visible_chars * 2 then
    ⟨List.replicate value.data.length '*'⟩
  else
    ⟨value.data.take visible_chars
      ++ List.replicate (value.data.length - visible_chars * 2) '*'
      ++ pyLastSlice value.data visible_chars⟩

/-! ### Balance arithmetic -/

/-- Python's `round(x)` to an integer: round half to even. -/
def roundHalfEven (q : ℚ) : ℤ :=
  let f := ⌊q⌋
  if q - f < 1 / 2 then f
  else if q - f > 1 / 2 then f + 1
  else if f % 2 = 0 then f else f + 1

/-- Python's `round(x, 2)`: round to two decimal places. -/
def round2 (q : ℚ) : ℚ :=
  (roundHalfEven (q * 100) : ℚ) / 100

/-! ### Cookies and account configuration -/

/-- A Python string-to-string dict, as an association list in insertion
order. -/
abbrev Dict : Type := List (String × String)

/-- `d[k] = v`: overwrite in place when the key exists, else append. -/
def dictSet (m : Dict) (k v : String) : Dict :=
  if m.any (fun p => p.1 = k) then
    m.map (fun p => if p.1 = k then (k, v) else p)
  else m ++ [(k, v)]

/-- Whether a dict has a key. -/
def dictHas (m : Dict) (k : String) : Bool :=
  m.any (fun p => p.1 = k)

/-- The JSON value configured under `cookies` for an account: a string
dict, a delimited string, or any other JSON type (which `parse_cookies`
maps to the empty dict). -/
inductive CookiesData where
  | dict (m : Dict)
  | str (s : String)
  | other
deriving DecidableEq, Repr

/-- Python `s.split(';')` on the character list: split at every `;`,
keeping empty pieces (so the empty string yields one empty piece). -/
def splitSemi : List Char → List (List Char)
  | [] => [[]]
  | c :: rest =>
    match splitSemi rest with
    | [] => [[]]
    | piece :: more =>
      if c = ';' then [] :: piece :: more else (c :: piece) :: more

/-- Python `s.strip()` on the character list (ASCII whitespace). -/
def stripChars (l : List Char) : List Char :=
  ((l.dropWhile Char.isWhitespace).reverse.dropWhile Char.isWhitespace).reverse

/-- One step of the `;`-split loop of `parse_cookies`: strip the piece,
and if it contains `=`, split once at the first `=` into key and value.
(Python tests `'=' in cookie` before stripping; stripping cannot remove an
`=`, so testing the stripped piece is the same.) -/
def parseCookiePiece (m : Dict) (piece : List Char) : Dict :=
  let t := stripChars piece
  if t.contains '=' then
    dictSet m ⟨t.takeWhile (· ≠ '=')⟩ ⟨(t.dropWhile (· ≠ '=')).drop 1⟩
  else m

/-- `parse_cookies` (checkin.py lines 112-124): a dict passes through, a
string is split on `;` into `k=v` pieces, anything else yields `{}`. -/
def parse_cookies : CookiesData → Dict
  | .dict m => m
  | .str s => (splitSemi s.data).foldl parseCookiePiece []
  | .other => []

/-- An account entry as `check_in_account` reads it: both fields may be
absent (`account_info.get(...)` supplies the defaults `{}` and `''`). -/
structure AccountConfig where
  cookies : Option CookiesData
  api_user : Option String
deriving DecidableEq, Repr

/-! ### `check_in_account` (checkin.py lines 279-381) -/

/-- A balance snapshot as `get_user_info` builds it (quota and used quota
already divided by 500000 and rounded to 2 decimals). -/
structure BalanceInfo where
  quota : ℚ
  used_quota : ℚ
deriving DecidableEq, Repr

/-- The `CheckinResult` TypedDict. -/
structure CheckinResult where
  success : Bool
  account_index : Nat
  user_info : Option String
  error : Option JVal
  balance_before : Option BalanceInfo
  balance_after : Option BalanceInfo
deriving DecidableEq, Repr

/-- The outcomes the network hands one `check_in_account` run: the result
of the balance probe before, of the (retried) sign-in POST, and of the
balance probe after.  `get_user_info` returns `none` on any non-success
outcome and never raises, so an `Option BalanceInfo` captures it. -/
structure NetOracle where
  before : Option BalanceInfo
  checkin : HttpOutcome
  after : Option BalanceInfo

/-- HTTP calls `check_in_account` makes, in order: a GET of
`/api/user/self` or a POST of `/api/user/sign_in`, each recording the
cookie jar the shared client holds when the call is issued. -/
inductive NetEvent where
  | getInfo (jar : Dict)
  | signIn (jar : Dict)
deriving DecidableEq, Repr

/-- The info string `get_user_info` formats from a snapshot (its exact
text does not matter to any claim; the model mirrors its shape). -/
def formatInfo (b : BalanceInfo) : String :=
  "余额: $" ++ toString b.quota ++ ", 已用: $" ++ toString b.used_quota

/-- Python `if not waf_cookies`: `None` and the empty dict are falsy. -/
def wafFalsy : Option Dict → Bool
  | none => true
  | some m => decide (m = [])

/-- A `CheckinResult` for a validation failure (no balances, no info). -/
def failResult (i : Nat) (err : String) : CheckinResult :=
  { success := false
    account_index := i
    user_info := none
    error := some (.jstr err)
    balance_before := none
    balance_after := none }

/-- `check_in_account` (checkin.py lines 279-381) as a function of the
account entry, its index, the harvested WAF cookies and the network
oracle, threading the shared client's cookie jar and recording the HTTP
calls made.  Validation failures return before any network call and leave
the jar untouched; the full path merges WAF and account cookies into the
jar (account cookies winning), probes the balance, signs in, probes again,
decides the verdict from the rounded quota delta, and clears the jar. -/
def check_in_account (account : AccountConfig) (account_index : Nat)
    (waf_cookies : Option Dict) (net : NetOracle) (jar : Dict) :
    CheckinResult × Dict × List NetEvent :=
  let api_user := account.api_user.getD ""
  if api_user = "" then
    (failResult account_index "缺少 api_user", jar, [])
  else
    let user_cookies := parse_cookies (account.cookies.getD (.dict []))
    if user_cookies = [] then
      (failResult account_index "cookies 格式无效", jar, [])
    else if wafFalsy waf_cookies then
      (failResult account_index "WAF cookies 获取失败", jar, [])
    else
      let all_cookies := user_cookies.foldl
        (fun m p => dictSet m p.1 p.2) (waf_cookies.getD [])
      let jar1 := all_cookies.foldl (fun m p => dictSet m p.1 p.2) jar
      let balance_before := net.before
      let info_before := balance_before.map formatInfo
      let (api_success, api_error) := do_checkin_request net.checkin
      let balance_after := net.after
      let info_after := balance_after.map formatInfo
      let base : CheckinResult :=
        { success := false
          account_index := account_index
          user_info := info_after.orElse (fun _ => info_before)
          error := none
          balance_before := balance_before
          balance_after := balance_after }
      let result :=
        match balance_before, balance_after with
        | some b, some a =>
          let quota_change := round2 (a.quota - b.quota)
          if quota_change > 0 then
            { base with
              success := true
              user_info := some ((info_after.getD "")
                ++ " (变化: +$" ++ toString quota_change ++ ")") }
          else if api_success then
            { base with
              success := false
              error := some (.jstr "今日已签到")
              user_info := some ((info_after.getD "") ++ " (今日已签到)") }
          else
            { base with success := false, error := api_error }
        | _, _ =>
          if api_success then
            { base with success := true }
          else
            { base with success := false, error := api_error }
      (result, [], [.getInfo jar1, .signIn jar1, .getInfo jar1])

/-! ### WAF harvesting (`get_single_waf_cookies`, checkin.py lines 127-168) -/

/-- The three WAF cookie names (checkin.py line 24). -/
def WAF_COOKIE_NAMES : List String := ["acw_tc", "cdn_sec_tc", "acw_sc__v2"]

/-- `MAX_RETRIES` (checkin.py line 26). -/
def MAX_RETRIES : Nat := 3

/-- Outcomes of the individual browser operations `get_single_waf_cookies`
performs, in program order; `.error e` means the operation raises an
exception with message `e`. -/
structure BrowserOracle where
  new_context : Except String Unit
  new_page : Except String Unit
  goto : Except String Unit
  wait_complete : Except String Unit
  wait_timeout : Except String Unit
  cookies : Except String (List (String × String))

/-- What one `get_single_waf_cookies` call does: its result (`.error` when
an exception escapes to the caller), and whether the browser context was
created and whether it was closed. -/
structure HarvestOutcome where
  result : Except String (Option Dict)
  contextCreated : Bool
  contextClosed : Bool

/-- The cookie filtering of checkin.py lines 148-162: keep the cookies
whose name is one of the three WAF names, then fail to `None` when any of
the three is missing. -/
def wafFromPageCookies (cs : List (String × String)) : Option Dict :=
  let waf := cs.foldl
    (fun m c => if WAF_COOKIE_NAMES.contains c.1 then dictSet m c.1 c.2 else m) []
  if (WAF_COOKIE_NAMES.filter (fun n => ¬ dictHas waf n)) ≠ [] then none
  else some waf

/-- `get_single_waf_cookies`: `new_context` and `new_page` run before the
`try`, so their exceptions propagate (and a `new_page` failure leaves the
context unclosed); everything from `goto` on is inside
`try ... except ... finally: context.close()`, so errors there become a
`None` result and the context is always closed.  The inner
`wait_for_function` failure falls back to `wait_for_timeout`, whose own
failure reaches the outer handler. -/
def get_single_waf_cookies (o : BrowserOracle) : HarvestOutcome :=
  match o.new_context with
  | .error e => ⟨.error e, false, false⟩
  | .ok _ =>
    match o.new_page with
    | .error e => ⟨.error e, true, false⟩
    | .ok _ =>
      let inner : Option Dict :=
        match o.goto with
        | .error _ => none
        | .ok _ =>
          let waitOk : Bool :=
            match o.wait_complete with
            | .ok _ => true
            | .error _ =>
              match o.wait_timeout with
              | .ok _ => true
              | .error _ => false
          if ¬ waitOk then none
          else
            match o.cookies with
            | .error _ => none
            | .ok cs => wafFromPageCookies cs
      ⟨.ok inner, true, true⟩

/-! ### Orchestrator (`load_accounts`, `get_all_waf_cookies`, `main`) -/

/-- One entry of the parsed `ANYROUTER_ACCOUNTS` JSON array: either not a
JSON object, or an object with its `cookies` and `api_user` fields (absent
fields are `none`). -/
inductive ConfigEntry where
  | nonDict
  | dict (cookies : Option CookiesData) (api_user : Option String)
deriving DecidableEq

/-- The parsed `ANYROUTER_ACCOUNTS` value: a JSON array or anything else. -/
inductive ConfigData where
  | nonList
  | list (entries : List ConfigEntry)
deriving DecidableEq

/-- The per-entry validation of checkin.py lines 98-104: the entry is a
dict and has both required keys. -/
def entryValid : ConfigEntry → Bool
  | .nonDict => false
  | .dict c a => c.isSome && a.isSome

/-- `load_accounts` (checkin.py lines 82-109) as a function of the
environment variable's parse outcome: `none` models a missing variable and
`.error` a JSON parse failure; a non-array value or any invalid entry
rejects the whole configuration. -/
def load_accounts : Option (Except String ConfigData) → Option (List ConfigEntry)
  | none => none
  | some (.error _) => none
  | some (.ok .nonList) => none
  | some (.ok (.list es)) => if es.all entryValid then some es else none

/-- View a validated config entry as the record `check_in_account` reads. -/
def entryConfig : ConfigEntry → AccountConfig
  | .nonDict => ⟨none, none⟩
  | .dict c a => ⟨c, a⟩

/-- Network-visible events of a whole run, tagged with the 0-based account
index they are performed for: a browser navigation to the login page (one
per harvest attempt), or an HTTP call of the check-in phase.  (Sleeps and
log output are not recorded.) -/
inductive SysEvent where
  | browserNav (account : Nat)
  | netCall (account : Nat) (e : NetEvent)
deriving DecidableEq, Repr

/-- The per-account retry loop of `get_all_waf_cookies` (checkin.py lines
194-204): up to `fuel` attempts, breaking on a truthy result, keeping the
last attempt's value otherwise; also returns the number of
`get_single_waf_cookies` invocations made.  `h a` is what
`get_single_waf_cookies` does on attempt `a`: `.ok` with its returned
value, or `.error` when it raises (its `new_context`/`new_page` calls run
outside its `try`, so it can raise); the loop body has no handler, so such
an exception propagates out of the loop at once. -/
def harvestGo (h : Nat → Except String (Option Dict)) (attempt : Nat) :
    Nat → Except String (Option Dict) × Nat
  | 0 => (.ok none, 0)
  | r + 1 =>
    match h attempt with
    | .error e => (.error e, 1)
    | .ok w =>
      if ¬ wafFalsy w then (.ok w, 1)
      else if r = 0 then (.ok w, 1)
      else
        let rec' := harvestGo h (attempt + 1) r
        (rec'.1, rec'.2 + 1)

/-- One account's harvest: the retry loop from attempt 0 with
`MAX_RETRIES` attempts. -/
def harvestAccount (h : Nat → Except String (Option Dict)) :
    Except String (Option Dict) × Nat :=
  harvestGo h 0 MAX_RETRIES

/-- `get_all_waf_cookies` for accounts `i, i+1, ...` while `k` accounts
remain: harvest each sequentially, recording one browser event per
`get_single_waf_cookies` invocation.  `h i a` is attempt `a`'s outcome for
account `i`.  An exception from any invocation propagates: the `finally`
closes the browser but nothing catches the exception inside
`get_all_waf_cookies`, so no cookie list is produced and the accounts
after the raising one are never harvested. -/
def harvestAll (h : Nat → Nat → Except String (Option Dict)) (i : Nat) :
    Nat → Except String (List (Option Dict)) × List SysEvent
  | 0 => (.ok [], [])
  | k + 1 =>
    let one := harvestAccount (h i)
    let evs := List.replicate one.2 (SysEvent.browserNav i)
    match one.1 with
    | .error e => (.error e, evs)
    | .ok w =>
      let rest := harvestAll h (i + 1) k
      match rest.1 with
      | .error e => (.error e, evs ++ rest.2)
      | .ok ws => (.ok (w :: ws), evs ++ rest.2)

/-- `get_all_waf_cookies(account_count)` (checkin.py lines 171-210):
either the per-account cookie list, or the exception that escaped it. -/
def get_all_waf_cookies (account_count : Nat)
    (h : Nat → Nat → Except String (Option Dict)) :
    Except String (List (Option Dict)) × List SysEvent :=
  harvestAll h 0 account_count

/-- The check-in phase of `main` (checkin.py lines 404-410) for the
accounts from index `i` on, threading the shared client's cookie jar.
The `asyncio.gather` tasks are modelled in task order; `check_in_account`
is total in this model, so `return_exceptions=True` captures nothing. -/
def runFrom (wafs : Nat → Option Dict) (nets : Nat → NetOracle) (jar : Dict)
    (i : Nat) : List AccountConfig → List CheckinResult × Dict × List SysEvent
  | [] => ([], jar, [])
  | a :: rest =>
    let step := check_in_account a i (wafs i) (nets i) jar
    let next := runFrom wafs nets step.2.1 (i + 1) rest
    (step.1 :: next.1, next.2.1,
      step.2.2.map (fun e => SysEvent.netCall i e) ++ next.2.2)

/-- `main` (checkin.py lines 384-410) up to the production of the result
list: load the configuration (aborting with no network activity when it is
rejected), harvest WAF cookies for every configured account, then run the
check-in phase.  Returns the results and the trace of network-visible
events; the results are `none` when the run produces no result list — on a
configuration abort, and when a harvest-phase exception propagates through
`get_all_waf_cookies` and `main` (it is only caught in `run_main`, which
exits with status 1 before any check-in runs). -/
def main_run (cfg : Option (Except String ConfigData))
    (h : Nat → Nat → Except String (Option Dict)) (nets : Nat → NetOracle) :
    Option (List CheckinResult) × List SysEvent :=
  match load_accounts cfg with
  | none => (none, [])
  | some entries =>
    let accounts := entries.map entryConfig
    let harvested := get_all_waf_cookies accounts.length h
    match harvested.1 with
    | .error _ => (none, harvested.2)
    | .ok wafs =>
      let phase2 := runFrom (fun i => wafs.getD i none) nets [] 0 accounts
      (some phase2.1, harvested.2 ++ phase2.2.2)

/-! ### Fixtures and trace shorthand used by the theorems -/

/-- The trace of `k` consecutive transient attempts of `retry_async`
starting at 0-based attempt `a`: invoke, then sleep `base * 2 ^ attempt`,
for each attempt in turn. -/
def transTraceFrom (base : ℚ) (a : Nat) : Nat → List REvent
  | 0 => []
  | k + 1 =>
    REvent.invoke a :: REvent.sleep (base * 2 ^ a) :: transTraceFrom base (a + 1) k

/-- A network oracle for runs whose check-in phase never reaches the
network or does not inspect it: no balances, an exception from the POST. -/
def netStub : NetOracle := ⟨none, .exc "x", none⟩

/-- A browser oracle whose `new_page` call raises. -/
def badOracle : BrowserOracle :=
  { new_context := .ok ()
    new_page := .error "boom"
    goto := .ok ()
    wait_complete := .ok ()
    wait_timeout := .ok ()
    cookies := .ok [] }

/-- A configuration that `load_accounts` accepts whose only account has an
empty `api_user`. -/
def cfgEmptyApiUser : Option (Except String ConfigData) :=
  some (.ok (.list [.dict (some (.str "a=b")) (some "")]))

/-- A configuration with two well-formed accounts. -/
def cfgTwo : Option (Except String ConfigData) :=
  some (.ok (.list
    [.dict (some (.str "a=b")) (some "u1"),
     .dict (some (.dict [("c", "d")])) (some "u2")]))

/-- A coroutine that fails transiently on its first two invocations and
succeeds on the third. -/
def retryProbe : Nat → AttemptOutcome Nat :=
  fun k => if k = 0 then .transient "t0"
    else if k = 1 then .transient "t1" else .ok 42

/-- The transient messages of `retryProbe`. -/
def retryProbeErr : Nat → String :=
  fun k => if k = 0 then "t0" else "t1"

/-! ## Claim theorems -/

/-- C6 counterexample: the claim asserts that every string of length at
most `2 * visible_chars` is replaced by exactly `len` mask characters; the
empty string (length 0) yields the fixed `'***'` instead, and for
`visible_chars = 0` Python's `value[-0:]` slice appends the whole string
after the mask run, so `'ab'` yields `'**ab'` rather than `'**'`. -/
theorem mask_sensitive_cex :
    mask_sensitive "" 4 = "***" ∧ mask_sensitive "" 4 ≠ "" ∧
    mask_sensitive "ab" 0 = "**ab" ∧ mask_sensitive "ab" 0 ≠ "**" := by
  refine ⟨by decide, by decide, by decide, by decide⟩

/-- C6 (amended): for a non-empty string and `visible_chars ≥ 1`, a string
of length at most `2 * visible_chars` is fully masked, and a longer string
keeps its first and last `visible_chars` characters around a run of
exactly `length - 2 * visible_chars` mask characters. -/
theorem mask_sensitive_spec (s : String) (v : Nat) (hs : s.data ≠ [])
    (hv : 1 ≤ v) :
    (s.data.length ≤ v * 2 →
      mask_sensitive s v = ⟨List.replicate s.data.length '*'⟩) ∧
    (v * 2 < s.data.length →
      mask_sensitive s v =
        ⟨s.data.take v ++ List.replicate (s.data.length - v * 2) '*'
          ++ s.data.drop (s.data.length - v)⟩) := by
  constructor
  · intro h
    unfold mask_sensitive
    rw [if_neg hs, if_pos h]
  · intro h
    unfold mask_sensitive pyLastSlice
    rw [if_neg hs, if_neg (by omega), if_neg (by omega)]

/-- C6 witness: the amended theorem applied to a 10-character string with
the default `visible_chars = 4`. -/
theorem mask_sensitive_spec_witness :
    mask_sensitive "abcdefghij" 4 = "abcd**ghij" := by
  have h := (mask_sensitive_spec "abcdefghij" 4 (by decide) (by decide)).2
    (by decide)
  rw [h]
  decide

/-- C8: response interpretation of `do_checkin_request`.  On HTTP 200 with
a JSON object body, success holds exactly when `ret == 1` or `code == 0`
or the `success` field is truthy, and otherwise the error is the body's
`msg`, else its `message`, else the fixed unknown-error text; on HTTP 200
with a non-JSON body, success holds exactly when the lowercased text
contains `"success"`; a non-200 status yields `(false, "HTTP <status>")`;
an exception yields `(false, first 100 characters of its message)`. -/
theorem do_checkin_request_spec (r : ApiBody) (t : String) (status : Nat)
    (b : RespBody) (m : String) :
    ((do_checkin_request (.resp 200 (.jsonObj r))).1 = true ↔
      (optEqInt r.ret 1 || optEqInt r.code 0 || optTruthy r.success) = true) ∧
    ((optEqInt r.ret 1 || optEqInt r.code 0 || optTruthy r.success) = false →
      do_checkin_request (.resp 200 (.jsonObj r)) =
        (false, some (r.msg.getD (r.message.getD (.jstr "未知错误"))))) ∧
    ((do_checkin_request (.resp 200 (.raw t))).1 = true ↔
      strContainsSub (strToLower t) "success" = true) ∧
    (status ≠ 200 →
      do_checkin_request (.resp status b) =
        (false, some (.jstr ("HTTP " ++ toString status)))) ∧
    (do_checkin_request (.exc m) = (false, some (.jstr (strTake m 100)))) := by
  refine ⟨?_, ?_, ?_, ?_, rfl⟩
  · by_cases hc : (optEqInt r.ret 1 || optEqInt r.code 0 || optTruthy r.success) = true
    · simp [do_checkin_request, hc]
    · simp [do_checkin_request, hc]
  · intro h
    simp [do_checkin_request, h]
  · by_cases hc : strContainsSub (strToLower t) "success" = true
    · simp [do_checkin_request, hc]
    · simp [do_checkin_request, hc]
  · intro h
    simp [do_checkin_request, h]

/-- C8 witness: a 500 response is classified as `HTTP 500`. -/
theorem do_checkin_request_spec_witness :
    do_checkin_request (.resp 500 (.raw "x")) =
      (false, some (.jstr "HTTP 500")) := by
  have h := (do_checkin_request_spec ⟨none, none, none, none, none⟩ "" 500
    (.raw "x") "").2.2.2.1 (by decide)
  simpa using h

/-- C4: when the WAF cookie set is absent, `check_in_account` returns a
failed result with a non-empty error and performs no HTTP call at all —
neither a balance probe nor the sign-in POST. -/
theorem waf_absent_rejected (account : AccountConfig) (i : Nat)
    (net : NetOracle) (jar : Dict) :
    (check_in_account account i none net jar).1.success = false ∧
    (∃ s, (check_in_account account i none net jar).1.error = some (.jstr s) ∧
      s ≠ "") ∧
    (check_in_account account i none net jar).2.2 = [] := by
  by_cases h1 : account.api_user.getD "" = ""
  · refine ⟨?_, ⟨"缺少 api_user", ?_, by decide⟩, ?_⟩ <;>
      simp [check_in_account, h1, failResult]
  · by_cases h2 : parse_cookies (account.cookies.getD (.dict [])) = []
    · refine ⟨?_, ⟨"cookies 格式无效", ?_, by decide⟩, ?_⟩ <;>
        simp [check_in_account, h1, h2, failResult]
    · refine ⟨?_, ⟨"WAF cookies 获取失败", ?_, by decide⟩, ?_⟩ <;>
        simp [check_in_account, h1, h2, failResult, wafFalsy]

/-- C2: true-success determination.  On a run that passes input validation,
with both balance snapshots available and `delta` the rounded quota
difference: `delta > 0` gives success regardless of the API flag;
`delta = 0` with an API-reported success gives a failed result with the
already-checked-in error; an API-reported failure (with no positive delta)
gives a failed result carrying the API's error; and with either snapshot
missing the verdict is exactly the raw API flag. -/
theorem checkin_true_success (account : AccountConfig) (i : Nat)
    (waf : Option Dict) (net : NetOracle) (jar : Dict)
    (h1 : account.api_user.getD "" ≠ "")
    (h2 : parse_cookies (account.cookies.getD (.dict [])) ≠ [])
    (h3 : wafFalsy waf = false) :
    (∀ b a, net.before = some b → net.after = some a →
      round2 (a.quota - b.quota) > 0 →
      (check_in_account account i waf net jar).1.success = true) ∧
    (∀ b a, net.before = some b → net.after = some a →
      round2 (a.quota - b.quota) = 0 →
      (do_checkin_request net.checkin).1 = true →
      (check_in_account account i waf net jar).1.success = false ∧
      (check_in_account account i waf net jar).1.error =
        some (.jstr "今日已签到")) ∧
    (∀ b a, net.before = some b → net.after = some a →
      ¬ round2 (a.quota - b.quota) > 0 →
      (do_checkin_request net.checkin).1 = false →
      (check_in_account account i waf net jar).1.success = false ∧
      (check_in_account account i waf net jar).1.error =
        (do_checkin_request net.checkin).2) ∧
    ((net.before = none ∨ net.after = none) →
      (check_in_account account i waf net jar).1.success =
        (do_checkin_request net.checkin).1) := by
  rcases hapi : do_checkin_request net.checkin with ⟨as, ae⟩
  refine ⟨?_, ?_, ?_, ?_⟩
  · intro b a hb ha hpos
    simp [check_in_account, h1, h2, h3, hb, ha, hapi, hpos]
  · intro b a hb ha hzero has
    simp at has
    simp [check_in_account, h1, h2, h3, hb, ha, hapi, hzero, has]
  · intro b a hb ha hnpos has
    simp at has
    simp [check_in_account, h1, h2, h3, hb, ha, hapi, hnpos, has]
  · rintro (hb | ha)
    · cases as <;> simp [check_in_account, h1, h2, h3, hb, hapi]
    · cases hb : net.before <;>
        cases as <;> simp [check_in_account, h1, h2, h3, hb, ha, hapi]

/-- C2 witness: quota 10 before, 12 after — a positive delta makes the run
a success. -/
theorem checkin_true_success_witness :
    (check_in_account ⟨some (.str "a=b"), some "u"⟩ 0 (some [("acw_tc", "1")])
      ⟨some ⟨10, 0⟩, .resp 200 (.raw "nope"), some ⟨12, 0⟩⟩ []).1.success
      = true := by
  exact (checkin_true_success ⟨some (.str "a=b"), some "u"⟩ 0
    (some [("acw_tc", "1")]) ⟨some ⟨10, 0⟩, .resp 200 (.raw "nope"), some ⟨12, 0⟩⟩
    [] (by decide) (by decide) (by decide)).1 ⟨10, 0⟩ ⟨12, 0⟩ rfl rfl
    (by norm_num [round2, roundHalfEven])

/-- C10 (implicit): with both snapshots available, a strictly negative
rounded delta together with an API-reported success is classified exactly
like a zero delta — a failed result with the already-checked-in error, not
a hard failure. -/
theorem negative_delta_already_checked (account : AccountConfig) (i : Nat)
    (waf : Option Dict) (net : NetOracle) (jar : Dict)
    (h1 : account.api_user.getD "" ≠ "")
    (h2 : parse_cookies (account.cookies.getD (.dict [])) ≠ [])
    (h3 : wafFalsy waf = false)
    (b a : BalanceInfo) (hb : net.before = some b) (ha : net.after = some a)
    (hneg : round2 (a.quota - b.quota) < 0)
    (has : (do_checkin_request net.checkin).1 = true) :
    (check_in_account account i waf net jar).1.success = false ∧
    (check_in_account account i waf net jar).1.error =
      some (.jstr "今日已签到") := by
  rcases hapi : do_checkin_request net.checkin with ⟨as, ae⟩
  rw [hapi] at has
  simp at has
  have hnpos : ¬ round2 (a.quota - b.quota) > 0 := by linarith
  simp [check_in_account, h1, h2, h3, hb, ha, hapi, hnpos, has]

/-- C10 witness: quota 5 before, 4 after, API flag true — the account is
reported as already checked in. -/
theorem negative_delta_already_checked_witness :
    (check_in_account ⟨some (.str "a=b"), some "u"⟩ 0 (some [("acw_tc", "1")])
      ⟨some ⟨5, 0⟩, .resp 200 (.raw "success"), some ⟨4, 0⟩⟩ []).1.success
      = false := by
  exact (negative_delta_already_checked ⟨some (.str "a=b"), some "u"⟩ 0
    (some [("acw_tc", "1")]) ⟨some ⟨5, 0⟩, .resp 200 (.raw "success"), some ⟨4, 0⟩⟩
    [] (by decide) (by decide) (by decide) ⟨5, 0⟩ ⟨4, 0⟩ rfl rfl
    (by norm_num [round2, roundHalfEven]) (by decide)).1

/-- C9 counterexample: the claim asserts the shared cookie jar is left
empty on every exit path; a call that fails validation (empty `api_user`)
returns before the clearing step and leaves a non-empty entry jar as it
was. -/
theorem cookie_jar_cex :
    (check_in_account ⟨some (.str "a=b"), some ""⟩ 0 none netStub
      [("sid", "x")]).2.1 = [("sid", "x")] ∧
    ([("sid", "x")] : Dict) ≠ ([] : Dict) := by
  refine ⟨rfl, by decide⟩

/-- C9 (amended): the jar is cleared (left empty) exactly on the paths
that pass input validation; a validation-failure exit leaves the jar
unchanged — so a call that starts with an empty jar ends with an empty jar
on every path, but a non-empty jar survives a validation-failure call. -/
theorem cookie_jar_after_run (account : AccountConfig) (i : Nat)
    (waf : Option Dict) (net : NetOracle) (jar : Dict) :
    (account.api_user.getD "" ≠ "" →
      parse_cookies (account.cookies.getD (.dict [])) ≠ [] →
      wafFalsy waf = false →
      (check_in_account account i waf net jar).2.1 = []) ∧
    (account.api_user.getD "" = "" ∨
      parse_cookies (account.cookies.getD (.dict [])) = [] ∨
      wafFalsy waf = true →
      (check_in_account account i waf net jar).2.1 = jar) ∧
    (jar = [] → (check_in_account account i waf net jar).2.1 = []) := by
  refine ⟨?_, ?_, ?_⟩
  · intro h1 h2 h3
    simp [check_in_account, h1, h2, h3]
  · rintro (h1 | h2 | h3)
    · simp [check_in_account, h1]
    · by_cases h1 : account.api_user.getD "" = "" <;>
        simp [check_in_account, h1, h2]
    · by_cases h1 : account.api_user.getD "" = "" <;>
        by_cases h2 : parse_cookies (account.cookies.getD (.dict [])) = [] <;>
        simp [check_in_account, h1, h2, h3]
  · intro hj
    subst hj
    by_cases h1 : account.api_user.getD "" = "" <;>
      by_cases h2 : parse_cookies (account.cookies.getD (.dict [])) = [] <;>
      by_cases h3 : wafFalsy waf = true <;>
      simp [check_in_account, h1, h2, h3]

/-- C9 witness: a validation-passing run started on a non-empty jar ends
with an empty jar. -/
theorem cookie_jar_after_run_witness :
    (check_in_account ⟨some (.str "a=b"), some "u"⟩ 0 (some [("acw_tc", "1")])
      netStub [("sid", "x")]).2.1 = [] := by
  exact (cookie_jar_after_run ⟨some (.str "a=b"), some "u"⟩ 0
    (some [("acw_tc", "1")]) netStub [("sid", "x")]).1
    (by decide) (by decide) (by decide)

/-- A dict returned by the cookie filter of `get_single_waf_cookies`
contains every one of the three WAF cookie names. -/
lemma wafFromPageCookies_complete (cs : List (String × String)) (m : Dict)
    (h : wafFromPageCookies cs = some m) :
    WAF_COOKIE_NAMES.all (dictHas m) = true := by
  simp only [wafFromPageCookies] at h
  split at h
  · exact absurd h (by simp)
  · rename_i hf
    rw [not_not] at hf
    obtain rfl : _ = m := Option.some.inj h
    rw [List.all_eq_true]
    intro n hn
    have := List.filter_eq_nil_iff.mp hf n hn
    simpa using this

/-- C5 counterexample: the claim asserts `get_single_waf_cookies` never
propagates an exception and closes its context on every exit path; the
context and page are created before the `try` block, so a failing
`new_page` call propagates its exception and the freshly created context
is left unclosed. -/
theorem get_single_waf_cookies_cex :
    (get_single_waf_cookies badOracle).result = .error "boom" ∧
    (get_single_waf_cookies badOracle).contextCreated = true ∧
    (get_single_waf_cookies badOracle).contextClosed = false :=
  ⟨rfl, rfl, rfl⟩

/-- C5 (amended): once the context and page have been created, every error
is caught locally — the call returns the complete 3-name WAF cookie map or
`None` and the context is closed; an exception from context creation
propagates with no context made, and an exception from page creation
propagates with the context created but not closed. -/
theorem get_single_waf_cookies_spec (o : BrowserOracle) :
    (∀ e, o.new_context = .error e →
      get_single_waf_cookies o = ⟨.error e, false, false⟩) ∧
    (∀ e, o.new_context = .ok () → o.new_page = .error e →
      get_single_waf_cookies o = ⟨.error e, true, false⟩) ∧
    (o.new_context = .ok () → o.new_page = .ok () →
      ∃ r, get_single_waf_cookies o = ⟨.ok r, true, true⟩ ∧
        ∀ m, r = some m → WAF_COOKIE_NAMES.all (dictHas m) = true) := by
  refine ⟨?_, ?_, ?_⟩
  · intro e he
    simp [get_single_waf_cookies, he]
  · intro e hc hp
    simp [get_single_waf_cookies, hc, hp]
  · intro hc hp
    cases hg : o.goto with
    | error e =>
      exact ⟨none, by simp [get_single_waf_cookies, hc, hp, hg], by simp⟩
    | ok u =>
      cases u
      cases hw : o.wait_complete with
      | error e =>
        cases hwt : o.wait_timeout with
        | error e2 =>
          exact ⟨none, by simp [get_single_waf_cookies, hc, hp, hg, hw, hwt],
            by simp⟩
        | ok u2 =>
          cases u2
          cases hck : o.cookies with
          | error e3 =>
            exact ⟨none,
              by simp [get_single_waf_cookies, hc, hp, hg, hw, hwt, hck],
              by simp⟩
          | ok cs =>
            refine ⟨wafFromPageCookies cs,
              by simp [get_single_waf_cookies, hc, hp, hg, hw, hwt, hck], ?_⟩
            intro m hm
            exact wafFromPageCookies_complete cs m hm
      | ok u2 =>
        cases u2
        cases hck : o.cookies with
        | error e3 =>
          exact ⟨none, by simp [get_single_waf_cookies, hc, hp, hg, hw, hck],
            by simp⟩
        | ok cs =>
          refine ⟨wafFromPageCookies cs,
            by simp [get_single_waf_cookies, hc, hp, hg, hw, hck], ?_⟩
          intro m hm
          exact wafFromPageCookies_complete cs m hm

/-- C5 witness: the amended theorem applied to the page-creation-failure
oracle. -/
theorem get_single_waf_cookies_spec_witness :
    get_single_waf_cookies badOracle =
      ⟨.error "boom", true, false⟩ :=
  (get_single_waf_cookies_spec badOracle).2.1 "boom" rfl rfl

/-- C7 counterexample: the claim asserts an account with empty `api_user`
sees no network activity at all on its behalf; `load_accounts` accepts
such an account (the key is present), and the WAF harvest phase navigates
the browser to the login page for it before the per-account `api_user`
check runs — the run's trace contains a browser navigation for account 0
even though its `api_user` is the empty string. -/
theorem empty_api_user_cex :
    SysEvent.browserNav 0 ∈
      (main_run cfgEmptyApiUser (fun _ _ => .ok none) (fun _ => netStub)).2 := by
  decide

/-- C7 (amended): a configuration entry missing a required field aborts
the whole run before any network activity, and an account whose
`api_user` is the empty string is rejected by `check_in_account` before
any check-in HTTP call — but browser navigation for the WAF harvest does
occur on its behalf. -/
theorem config_validation_spec :
    (∀ cfg h nets, load_accounts cfg = none →
      main_run cfg h nets = (none, [])) ∧
    (∀ entries e, e ∈ entries → entryValid e = false →
      load_accounts (some (.ok (.list entries))) = none) ∧
    (∀ account i waf net jar, account.api_user.getD "" = "" →
      check_in_account account i waf net jar =
        (failResult i "缺少 api_user", jar, [])) := by
  refine ⟨?_, ?_, ?_⟩
  · intro cfg h nets hl
    simp [main_run, hl]
  · intro entries e he hv
    have : entries.all entryValid = false := by
      rw [List.all_eq_false]
      exact ⟨e, he, by simp [hv]⟩
    simp [load_accounts, this]
  · intro account i waf net jar hu
    simp [check_in_account, hu]

/-- C7 witness: the amended theorem applied to the empty-`api_user`
account — `check_in_account` returns the missing-`api_user` failure with
no HTTP call and the jar untouched. -/
theorem config_validation_spec_witness :
    check_in_account ⟨some (.str "a=b"), some ""⟩ 0 none netStub [] =
      (failResult 0 "缺少 api_user", [], []) :=
  config_validation_spec.2.2 ⟨some (.str "a=b"), some ""⟩ 0 none netStub []
    (by decide)

/-- Running the retry loop across `k` consecutive transient attempts
starting at attempt `a` prepends their invoke/sleep events and continues
from attempt `a + k` with `k` fewer attempts remaining. -/
lemma retryGo_transient_shift {α : Type} (f : Nat → AttemptOutcome α)
    (base : ℚ) (e : Nat → String) :
    ∀ (k a r : Nat), k < r →
      (∀ j, j < k → f (a + j) = .transient (e (a + j))) →
      retryGo f base a r =
        ((retryGo f base (a + k) (r - k)).1,
          transTraceFrom base a k ++ (retryGo f base (a + k) (r - k)).2) := by
  intro k
  induction k with
  | zero =>
    intro a r hk htr
    simp [transTraceFrom]
  | succ k ih =>
    intro a r hk htr
    cases r with
    | zero => omega
    | succ r' =>
      have hfa : f a = AttemptOutcome.transient (e a) := by
        simpa using htr 0 (Nat.succ_pos k)
      have hkr : k < r' := by omega
      have htr' : ∀ j, j < k → f (a + 1 + j) = .transient (e (a + 1 + j)) := by
        intro j hj
        have h := htr (j + 1) (by omega)
        have hadd : a + (j + 1) = a + 1 + j := by omega
        rwa [hadd] at h
      have hstep : retryGo f base a (r' + 1) =
          ((retryGo f base (a + 1) r').1,
            REvent.invoke a :: REvent.sleep (base * 2 ^ a) ::
              (retryGo f base (a + 1) r').2) := by
        simp only [retryGo, hfa]
        rw [if_neg (by omega : ¬ r' = 0)]
      rw [hstep, ih (a + 1) r' hkr htr']
      have h1 : a + 1 + k = a + (k + 1) := by omega
      have h2 : r' - k = r' + 1 - (k + 1) := by omega
      rw [transTraceFrom, h1, h2]
      simp

/-- C3: the retry policy.  With `f j` the outcome of the `j`-th invocation
(0-based) and `e j` its transient message: after `k` transient failures a
success on attempt `k < max` is returned with the trace of `k`
invoke/sleep pairs (delay `base * 2 ^ attempt`) and the final invocation;
a non-transient exception on attempt `k` propagates immediately with no
further sleep or invocation; if every attempt fails transiently the last
transient exception is raised after the final (sleepless) invocation; and
in particular two transient failures followed by a success make exactly
three invocations with delays `base * 1` then `base * 2` and return the
success value. -/
theorem retry_async_spec {α : Type} (f : Nat → AttemptOutcome α)
    (base : ℚ) (e : Nat → String) :
    (∀ (v : α) k max, k < max → (∀ j, j < k → f j = .transient (e j)) →
      f k = .ok v →
      retry_async f base max =
        (.ok v, transTraceFrom base 0 k ++ [.invoke k])) ∧
    (∀ (m : String) k max, k < max →
      (∀ j, j < k → f j = .transient (e j)) → f k = .fatal m →
      retry_async f base max =
        (.raised m, transTraceFrom base 0 k ++ [.invoke k])) ∧
    (∀ max, 1 ≤ max → (∀ j, j < max → f j = .transient (e j)) →
      retry_async f base max =
        (.raised (e (max - 1)),
          transTraceFrom base 0 (max - 1) ++ [.invoke (max - 1)])) ∧
    (∀ (v : α), f 0 = .transient (e 0) → f 1 = .transient (e 1) →
      f 2 = .ok v →
      retry_async f base 3 =
        (.ok v, [.invoke 0, .sleep (base * 1), .invoke 1,
          .sleep (base * 2), .invoke 2])) := by
  have key : ∀ (k max : Nat), k < max →
      (∀ j, j < k → f j = .transient (e j)) →
      retry_async f base max =
        ((retryGo f base k (max - k)).1,
          transTraceFrom base 0 k ++ (retryGo f base k (max - k)).2) := by
    intro k max hk htr
    unfold retry_async
    have h := retryGo_transient_shift f base e k 0 max hk
      (by intro j hj; simpa using htr j hj)
    simpa using h
  have hsplit : ∀ (k max : Nat), k < max → ∃ d, max - k = d + 1 := by
    intro k max hk
    exact ⟨max - k - 1, by omega⟩
  have p1 : ∀ (v : α) k max, k < max →
      (∀ j, j < k → f j = .transient (e j)) → f k = .ok v →
      retry_async f base max =
        (.ok v, transTraceFrom base 0 k ++ [.invoke k]) := by
    intro v k max hk htr hok
    obtain ⟨d, hd⟩ := hsplit k max hk
    rw [key k max hk htr, hd]
    simp [retryGo, hok]
  refine ⟨p1, ?_, ?_, ?_⟩
  · intro m k max hk htr hfat
    obtain ⟨d, hd⟩ := hsplit k max hk
    rw [key k max hk htr, hd]
    simp [retryGo, hfat]
  · intro max hmax htr
    have hk : max - 1 < max := by omega
    have hd : max - (max - 1) = 0 + 1 := by omega
    rw [key (max - 1) max hk (fun j hj => htr j (by omega)), hd]
    simp [retryGo, htr (max - 1) hk]
  · intro v h0 h1 h2
    have h := p1 v 2 3 (by omega)
      (by
        intro j hj
        interval_cases j
        · exact h0
        · exact h1)
      h2
    rw [h]
    simp [transTraceFrom]

/-- C3 witness: the probe failing transiently twice then succeeding is
invoked three times with delays 1 and 2 and returns its value. -/
theorem retry_async_spec_witness :
    retry_async retryProbe 1 3 =
      (.ok 42, [.invoke 0, .sleep 1, .invoke 1, .sleep 2, .invoke 2]) := by
  have h := (retry_async_spec retryProbe 1 retryProbeErr).2.2.2 42
    (by decide) (by decide) (by decide)
  simpa using h

/-- `check_in_account` stamps its result with the index it was given, on
every path. -/
lemma check_in_account_index (account : AccountConfig) (i : Nat)
    (waf : Option Dict) (net : NetOracle) (jar : Dict) :
    (check_in_account account i waf net jar).1.account_index = i := by
  by_cases h1 : account.api_user.getD "" = ""
  · simp [check_in_account, h1, failResult]
  · by_cases h2 : parse_cookies (account.cookies.getD (.dict [])) = []
    · simp [check_in_account, h1, h2, failResult]
    · by_cases h3 : wafFalsy waf = true
      · simp [check_in_account, h1, h2, h3, failResult]
      · rcases hapi : do_checkin_request net.checkin with ⟨as, ae⟩
        cases hb : net.before with
        | none => cases as <;> simp [check_in_account, h1, h2, h3, hb, hapi]
        | some b =>
          cases ha : net.after with
          | none =>
            cases as <;> simp [check_in_account, h1, h2, h3, hb, ha, hapi]
          | some a =>
            by_cases hq : round2 (a.quota - b.quota) > 0
            · simp [check_in_account, h1, h2, h3, hb, ha, hapi, hq]
            · cases as <;>
                simp [check_in_account, h1, h2, h3, hb, ha, hapi, hq]

/-- The check-in phase produces one result per account, and the result in
position `j` carries index `i + j` when the phase starts at index `i`. -/
lemma runFrom_aligned (wafs : Nat → Option Dict) (nets : Nat → NetOracle) :
    ∀ (accounts : List AccountConfig) (i : Nat) (jar : Dict),
      (runFrom wafs nets jar i accounts).1.length = accounts.length ∧
      ∀ j (hj : j < (runFrom wafs nets jar i accounts).1.length),
        ((runFrom wafs nets jar i accounts).1.get ⟨j, hj⟩).account_index
          = i + j := by
  intro accounts
  induction accounts with
  | nil =>
    intro i jar
    simp [runFrom]
  | cons a rest ih =>
    intro i jar
    constructor
    · simp [runFrom,
        (ih (i + 1) (check_in_account a i (wafs i) (nets i) jar).2.1).1]
    · intro j hj
      cases j with
      | zero =>
        have hidx := check_in_account_index a i (wafs i) (nets i) jar
        simpa [runFrom] using hidx
      | succ j' =>
        have hj' : j' < ((runFrom wafs nets
            (check_in_account a i (wafs i) (nets i) jar).2.1
            (i + 1) rest).1).length := by
          have hlen := hj
          simp [runFrom] at hlen
          simpa [(ih (i + 1)
            (check_in_account a i (wafs i) (nets i) jar).2.1).1] using hlen
        have hrec := (ih (i + 1)
          (check_in_account a i (wafs i) (nets i) jar).2.1).2 j' hj'
        simpa [runFrom, Nat.add_assoc, Nat.add_comm 1 j'] using hrec

/-- C1 counterexample: the claim asserts every valid N-account
configuration yields exactly N results; `cfgTwo` is a configuration
`load_accounts` accepts with two valid accounts, yet when the first
account's harvest raises (the reachable `new_page`-failure path of
`get_single_waf_cookies`), the exception propagates through
`get_all_waf_cookies` and `main` and the run aborts with no result list
at all. -/
theorem orchestrator_results_cex :
    load_accounts cfgTwo =
      some [.dict (some (.str "a=b")) (some "u1"),
        .dict (some (.dict [("c", "d")])) (some "u2")] ∧
    (main_run cfgTwo (fun _ _ => .error "boom") (fun _ => netStub)).1
      = none := by
  refine ⟨by decide, rfl⟩

/-- C1 (amended): for every configuration `load_accounts` accepts, if the
WAF-harvest phase completes without a propagating browser exception the
orchestrator produces exactly one `CheckinResult` per configured account,
with the result in position `i` carrying `account_index = i`; if any
account's harvest raises, the exception aborts the run and no result list
is produced. -/
theorem orchestrator_results_aligned (cfg : Option (Except String ConfigData))
    (h : Nat → Nat → Except String (Option Dict)) (nets : Nat → NetOracle)
    (entries : List ConfigEntry) (hl : load_accounts cfg = some entries) :
    (∀ wafs,
      (get_all_waf_cookies (entries.map entryConfig).length h).1 = .ok wafs →
      ∃ rs, (main_run cfg h nets).1 = some rs ∧
        rs.length = entries.length ∧
        ∀ i (hi : i < rs.length), (rs.get ⟨i, hi⟩).account_index = i) ∧
    (∀ e,
      (get_all_waf_cookies (entries.map entryConfig).length h).1 = .error e →
      (main_run cfg h nets).1 = none) := by
  constructor
  · intro wafs hw
    rw [List.length_map] at hw
    have hmain : (main_run cfg h nets).1 =
        some (runFrom (fun i => wafs.getD i none)
          nets [] 0 (entries.map entryConfig)).1 := by
      simp [main_run, hl, hw]
    refine ⟨_, hmain, ?_, ?_⟩
    · rw [(runFrom_aligned _ nets (entries.map entryConfig) 0 []).1]
      simp
    · intro i hi
      have h2 := (runFrom_aligned _ nets (entries.map entryConfig) 0 []).2 i hi
      simpa using h2
  · intro e he
    rw [List.length_map] at he
    simp [main_run, hl, he]

/-- C1 witness: with an exception-free harvest, the two-account
configuration yields two results with indices 0 and 1. -/
theorem orchestrator_results_aligned_witness :
    ∃ rs,
      (main_run cfgTwo (fun _ _ => .ok none) (fun _ => netStub)).1 = some rs ∧
      rs.length = 2 ∧
      ∀ i (hi : i < rs.length), (rs.get ⟨i, hi⟩).account_index = i := by
  have h := (orchestrator_results_aligned cfgTwo (fun _ _ => .ok none)
    (fun _ => netStub)
    [.dict (some (.str "a=b")) (some "u1"),
     .dict (some (.dict [("c", "d")])) (some "u2")] (by decide)).1
    [none, none] rfl
  simpa using h

end Checkin
